import Mathlib

/-!
Verification of the content-review mail subsystem
(`scripts/content_review_mail.py` and `content-pipeline/pipeline_v2.py`).

Strings are embedded as `List Char`.  Python operations used by the source
(`str.lower`, `in` substring tests, `str.split`, `str.strip`, the two regular
expressions, `int`) are given explicit executable models below; each model is
annotated with the Python construct it translates.
-/

namespace ContentReviewMail

/-- Models Python `str.lower` character-wise.  On the alphabets occurring in
this system (ASCII letters, digits, punctuation and CJK text) Python
lowercasing maps `A`-`Z` to `a`-`z` and leaves every other character fixed,
which is exactly `Char.toLower`. -/
def pyLower (s : List Char) : List Char := s.map Char.toLower

/-- Models Python `needle in hay` on strings: `needle` occurs as a contiguous
substring of `hay`. -/
def pyIn (needle : List Char) : List Char → Bool
  | [] => needle.isEmpty
  | c :: rest => needle.isPrefixOf (c :: rest) || pyIn needle rest

/-- Models `any(kw in s for kw in kws)`. -/
def anyKw (kws : List (List Char)) (s : List Char) : Bool :=
  kws.any fun kw => pyIn kw s

/-- Models Python `str.strip()` (whitespace removed from both ends). -/
def pyStrip (l : List Char) : List Char :=
  ((l.dropWhile Char.isWhitespace).reverse.dropWhile Char.isWhitespace).reverse

/-- Models Python `str.split(sep)` for a one-character separator: auxiliary
accumulator form. -/
def splitChAux (sep : Char) : List Char → List Char → List (List Char)
  | [], acc => [acc.reverse]
  | c :: rest, acc =>
    if c = sep then acc.reverse :: splitChAux sep rest []
    else splitChAux sep rest (c :: acc)

/-- Models Python `str.split(sep)` for a one-character separator
(`''.split(sep) = ['']`, separators produce empty fields). -/
def splitCh (sep : Char) (l : List Char) : List (List Char) :=
  splitChAux sep l []

/-- Models Python `line.split(sep, 1)[-1]`: everything after the first
occurrence of `sep`, or the whole string when `sep` does not occur. -/
def afterFirstSep (sep : Char) (l : List Char) : List Char :=
  if l.contains sep then (l.dropWhile fun c => c ≠ sep).drop 1 else l

/-- Models `'\n'.join(items)`. -/
def joinNL (items : List (List Char)) : List Char :=
  List.intercalate ['\n'] items

/-- Models Python `int(...)` applied to a nonempty ASCII digit group. -/
def digitsToNat (ds : List Char) : Nat :=
  ds.foldl (fun n c => n * 10 + (c.toNat - 48)) 0

/-- Continuation of `numListMarker`: after the leading digit run, the next
character must be `.` or `、` (`re.match` of `\d+[.、]` with backtracking:
only the maximal digit run can be followed by the punctuation class). -/
def afterDigits : List Char → Bool
  | [] => false
  | c :: rest => if c.isDigit then afterDigits rest else decide (c = '.' ∨ c = '、')

/-- Models `re.match(r'^\d+[.、]\s*', line)`: the line begins with one or more
digits followed by `.` or `、` (the trailing `\s*` always matches). -/
def numListMarker : List Char → Bool
  | [] => false
  | c :: rest => c.isDigit && afterDigits rest

/-- Keyword table of the feedback-harvesting pass of `parse_instruction`
(content_review_mail.py line 255). -/
def feedbackKws : List (List Char) :=
  ["比如".data, "例如".data, "建议".data, "意见".data, "避免".data, "不要".data]

/-- Feedback-harvesting pass of `parse_instruction` (lines 248-257): every
line of the raw body that, once stripped, starts with a numbered-list marker
or contains a suggestion keyword is collected. -/
def feedbackItems (body : List Char) : List (List Char) :=
  (splitCh '\n' body).filterMap fun rawLine =>
    let line := pyStrip rawLine
    if numListMarker line then some line
    else if anyKw feedbackKws line then some line
    else none

/-- Lines 258-259: the harvested feedback, newline-joined, or `None` when no
line qualified. -/
def feedbackOf (body : List Char) : Option (List Char) :=
  let items := feedbackItems body
  if items.isEmpty then none else some (joinNL items)

/-- Alternative `候选\s*(\d+)` of the candidate-number regex, attempted at the
head of the list: literal `候选`, then greedy whitespace, then a nonempty
digit group. -/
def altHouxuan (l : List Char) : Option Nat :=
  match l with
  | '候' :: '选' :: rest =>
    let ds := (rest.dropWhile Char.isWhitespace).takeWhile Char.isDigit
    if ds.isEmpty then none else some (digitsToNat ds)
  | _ => none

/-- Alternative `candidate\s*(\d+)` of the candidate-number regex, attempted
at the head of the list. -/
def altCandidate (l : List Char) : Option Nat :=
  if ("candidate".data).isPrefixOf l then
    let ds := ((l.drop 9).dropWhile Char.isWhitespace).takeWhile Char.isDigit
    if ds.isEmpty then none else some (digitsToNat ds)
  else none

/-- Alternative `(\d+)号` of the candidate-number regex, attempted at the head
of the list: a nonempty digit run immediately followed by `号` (with
backtracking only the maximal run can be followed by the non-digit `号`). -/
def altHao (l : List Char) : Option Nat :=
  let ds := l.takeWhile Char.isDigit
  if ds.isEmpty then none
  else
    match l.drop ds.length with
    | '号' :: _ => some (digitsToNat ds)
    | _ => none

/-- Models `re.search(r'候选\s*(\d+)|candidate\s*(\d+)|(\d+)号', content)`
followed by `int(group(1) or group(2) or group(3))`: positions are scanned
left to right, and at each position the three alternatives are tried in
order (lines 265-267, 287-289, 305-307). -/
def searchCandidate : List Char → Option Nat
  | [] => none
  | c :: rest =>
    match altHouxuan (c :: rest) with
    | some n => some n
    | none =>
      match altCandidate (c :: rest) with
      | some n => some n
      | none =>
        match altHao (c :: rest) with
        | some n => some n
        | none => searchCandidate rest

/-- Python truthiness of the `feedback` entry in
`elif instruction.get('feedback'):` (line 269): a string is truthy iff
nonempty, `None` is falsy. -/
def optTruthy : Option (List Char) → Bool
  | none => false
  | some s => !s.isEmpty

/-- The five action strings `parse_instruction` can store under `'action'`
(`None` is modelled by `Option`). -/
inductive PyAction where
  | publish
  | regenerate
  | modify
  | skip
  | view
  deriving DecidableEq

/-- The dictionary returned by `parse_instruction`: exactly the four keys
`action`, `candidate`, `direction`, `feedback` (lines 239-244). -/
structure Instruction where
  action : Option PyAction
  candidate : Option Nat
  direction : Option (List Char)
  feedback : Option (List Char)
  deriving DecidableEq

/-- Keyword tables of the action branches (lines 262, 273, 285, 299, 303). -/
def publishKws : List (List Char) :=
  ["发布".data, "publish".data, "确认".data, "ok".data, "采用".data]

def regenKws : List (List Char) :=
  ["重新生成".data, "regenerate".data, "重写".data, "再来".data]

def modifyKws : List (List Char) :=
  ["修改".data, "modify".data, "优化".data, "调整".data]

def skipKws : List (List Char) :=
  ["跳过".data, "skip".data, "今天不发".data, "取消".data]

def viewKws : List (List Char) :=
  ["查看".data, "view".data, "看看".data, "全文".data]

/-- Guard of the direction extraction (line 276): `'方向' in email_content or
'侧重' in email_content`, on the raw body. -/
def dirGuardKws : List (List Char) := ["方向".data, "侧重".data]

/-- Line filter of the direction extraction (line 280). -/
def dirLineKws : List (List Char) := ["方向".data, "侧重".data, "重点".data]

/-- First line of the raw body containing a direction keyword, transformed by
`line.split('：', 1)[-1].split(':', 1)[-1].strip()` (lines 278-282). -/
def findDirLine : List (List Char) → Option (List Char)
  | [] => none
  | line :: rest =>
    if anyKw dirLineKws line then
      some (pyStrip (afterFirstSep ':' (afterFirstSep '：' line)))
    else findDirLine rest

/-- Direction extraction of the regenerate branch (lines 275-282). -/
def extractDirection (body : List Char) : Option (List Char) :=
  if anyKw dirGuardKws body then findDirLine (splitCh '\n' body)
  else none

/-- Line filter of the modify branch feedback collection (line 294). -/
def modifyFbKws : List (List Char) :=
  ["问题".data, "建议".data, "意见".data, "需要".data, "应该".data]

/-- Feedback collection of the modify branch (lines 291-296): raw lines,
not stripped, newline-joined; the join is assigned unconditionally, so the
modify branch always stores a (possibly empty) string. -/
def modifyFeedback (body : List Char) : List Char :=
  joinNL ((splitCh '\n' body).filter fun line => anyKw modifyFbKws line)

/-- `ContentReviewMail.parse_instruction` (content_review_mail.py lines
235-309), translated branch by branch. -/
def parse_instruction (email_content : List Char) : Instruction :=
  let content := pyLower email_content
  let fb := feedbackOf email_content
  if anyKw publishKws content then
    { action := some PyAction.publish
      candidate :=
        match searchCandidate content with
        | some n => some n
        | none => if optTruthy fb then some 1 else none
      direction := none
      feedback := fb }
  else if anyKw regenKws content then
    { action := some PyAction.regenerate
      candidate := none
      direction := extractDirection email_content
      feedback := fb }
  else if anyKw modifyKws content then
    { action := some PyAction.modify
      candidate := searchCandidate content
      direction := none
      feedback := some (modifyFeedback email_content) }
  else if anyKw skipKws content then
    { action := some PyAction.skip
      candidate := none
      direction := none
      feedback := fb }
  else if anyKw viewKws content then
    { action := some PyAction.view
      candidate := searchCandidate content
      direction := none
      feedback := fb }
  else
    { action := none
      candidate := none
      direction := none
      feedback := fb }

/-- One candidate article, with the fields the mail subsystem reads
(`topic`, `content`, `angle_type`, the two scores and the word count).  The
scores are only interpolated into display text by the source, never computed
with, so their numeric type is immaterial; they are modelled as integers. -/
structure Candidate where
  topic : List Char
  content : List Char
  angle_type : List Char
  quality_score : Int
  uniqueness_score : Int
  word_count : Nat
  deriving DecidableEq

/-- One entry of `state['pending_reviews']` as written by `send_review_email`
(lines 355-360).  `status` is a plain string in the source and is kept as
one; `sent_time` holds the `datetime.now().isoformat()` string. -/
structure ReviewRequest where
  date : List Char
  candidates : List Candidate
  sent_time : List Char
  status : List Char
  deriving DecidableEq

/-- The persistent state dictionary of `ContentReviewMail` (`_load_state`,
lines 78-83): `last_check_time`, the `pending_reviews` dict (modelled as an
association list with unique keys), the `processed_emails` list and the
`conversation_history` list. -/
structure MailState where
  last_check_time : Option (List Char)
  pending_reviews : List (List Char × ReviewRequest)
  processed_emails : List (List Char)
  conversation_history : List (List Char)
  deriving DecidableEq

/-- Python dict write `d[k] = v`: the key gets exactly one binding. -/
def setKey (k : List Char) (v : ReviewRequest)
    (m : List (List Char × ReviewRequest)) : List (List Char × ReviewRequest) :=
  (k, v) :: m.filter fun p => !(p.1 == k)

/-- Python dict read `d.get(k)`. -/
def lookupReview (k : List Char)
    (m : List (List Char × ReviewRequest)) : Option ReviewRequest :=
  match m.find? (fun p => p.1 == k) with
  | some p => some p.2
  | none => none

/-- Number of bindings a key has in the association list (a Python dict
always has exactly one per present key). -/
def countKey (k : List Char) (m : List (List Char × ReviewRequest)) : Nat :=
  (m.filter fun p => p.1 == k).length

/-- `ContentReviewMail.send_review_email` (lines 311-367).  The SMTP
interaction is a collaborator; `sendOk` states whether it completed without
raising.  On success the pending-review entry is written (status
`waiting_reply`) and `True` is returned; any transport exception is caught
and `False` returned with the state untouched, because the state write sits
after `sendmail` inside the `try` block. -/
def send_review_email (sendOk : Bool) (st : MailState)
    (candidates : List Candidate) (article_date now : List Char) :
    Bool × MailState :=
  if sendOk then
    (true,
      { st with
        pending_reviews :=
          setKey article_date
            { date := article_date
              candidates := candidates
              sent_time := now
              status := "waiting_reply".data } st.pending_reviews })
  else (false, st)

/-- The dictionary built for each fetched message by `check_new_emails`
(lines 135-141). -/
structure Email where
  id : List Char
  subject : List Char
  fromAddr : List Char
  date : List Char
  body : List Char
  deriving DecidableEq

/-- Subject keyword table of `is_review_reply` (line 225); the subject is
matched without lowercasing. -/
def subjectKws : List (List Char) :=
  ["审核".data, "回复".data, "Re:".data, "候选".data, "文章".data,
   "发布".data, "review".data, "candidate".data, "测试".data, "test".data]

/-- `ContentReviewMail.is_review_reply` (lines 219-233): subject keyword hit,
or the lower-cased sender contains `zayme` or `shaw`. -/
def is_review_reply (e : Email) : Bool :=
  anyKw subjectKws e.subject
  || pyIn "zayme".data (pyLower e.fromAddr)
  || pyIn "shaw".data (pyLower e.fromAddr)

/-- Outcome of one IMAP interaction: the decoded unseen messages, or an
exception raised anywhere inside it. -/
inductive FetchOutcome where
  | ok (unseen : List Email)
  | err (msg : List Char)
  deriving DecidableEq

/-- `ContentReviewMail.check_new_emails` (lines 90-153): on a successful
interaction the last (at most) 10 unseen messages are returned
(`msg_ids[-10:]`, line 121); any exception is caught, logged and an empty
list is returned (lines 149-153). -/
def check_new_emails : FetchOutcome → List Email
  | FetchOutcome.ok unseen => unseen.drop (unseen.length - 10)
  | FetchOutcome.err _ => []

/-- The per-message work of one `run_mail_loop` iteration (lines 488-497):
every fetched message passing `is_review_reply` has its body parsed and the
resulting instruction dispatched to `handle_instruction`.  The dispatched
pairs are the downstream side-effecting actions of the iteration. -/
def reviewActions (fetched : List Email) : List (Instruction × Email) :=
  (fetched.filter is_review_reply).map fun e => (parse_instruction e.body, e)

/-- One iteration of `run_mail_loop` (lines 483-506) after the fetch: the
dispatched actions are computed and the only state mutation is
`last_check_time` (lines 500-501). -/
def loopIteration (st : MailState) (fetched : List Email) (now : List Char) :
    MailState × List (Instruction × Email) :=
  ({ st with last_check_time := some now }, reviewActions fetched)

/-- One full poll cycle: fetch (with its internal exception handling), then
the iteration body. -/
def loopStep (st : MailState) (outcome : FetchOutcome) (now : List Char) :
    MailState × List (Instruction × Email) :=
  loopIteration st (check_new_emails outcome) now

/-- `run_mail_loop` over a finite schedule of polls, each being the fetch
outcome and the wall-clock time of that cycle; returns the final state and
all dispatched actions in order.  The loop in the source exits only on an
external interrupt, so every scheduled poll is processed. -/
def loopRun (st : MailState) : List (FetchOutcome × List Char) →
    MailState × List (Instruction × Email)
  | [] => (st, [])
  | (o, t) :: rest =>
    let step := loopStep st o t
    let tail := loopRun step.1 rest
    (tail.1, step.2 ++ tail.2)

/-- Collaborators of `AdvancedContentPipeline` (pipeline_v2.py) as seen by
`process_review`: whether `output/<date>/candidate_<n>.md` exists, the
standard output of the external `wenyan` publisher for that file (`none`
models the subprocess raising, e.g. a timeout), and the outcome of
`run_multi_candidate_workflow` — a large effectful routine treated as a
collaborator — as its boolean result paired with the number of publisher
invocations it performs. -/
structure PublishEnv where
  fileExists : List Char → Nat → Bool
  publisherOutput : List Char → Nat → Option (List Char)
  workflow : Bool × Nat
  deriving Inhabited

/-- `AdvancedContentPipeline._publish_candidate` (pipeline_v2.py lines
247-274), paired with the number of publisher invocations the call performs:
if the candidate file is missing, return `False` without invoking the
publisher; otherwise invoke it exactly once and succeed iff its output
contains `上传成功`. -/
def publish_candidate (env : PublishEnv) (date : List Char) (num : Nat) :
    Bool × Nat :=
  if env.fileExists date num then
    match env.publisherOutput date num with
    | some out => (pyIn "上传成功".data out, 1)
    | none => (false, 1)
  else (false, 0)

/-- The `action` string and keyword arguments of `process_review`, as the
five shapes its dispatch distinguishes. -/
inductive ReviewAction where
  | select (candidate_num : Nat)
  | regenerate (direction : List Char)
  | feedback (ftype fcontent : List Char)
  | skip
  | unknown (raw : List Char)
  deriving DecidableEq

/-- `AdvancedContentPipeline.process_review` (pipeline_v2.py lines 218-245),
paired with the number of publisher invocations: `select` goes straight to
`_publish_candidate`, `regenerate` records feedback and reruns the whole
workflow, `feedback` records and returns `True`, `skip` returns `True`, an
unknown action string returns `False`.  The function reads no stored
resolution state. -/
def process_review (env : PublishEnv) (date : List Char) :
    ReviewAction → Bool × Nat
  | ReviewAction.select n => publish_candidate env date n
  | ReviewAction.regenerate _ => env.workflow
  | ReviewAction.feedback _ _ => (true, 0)
  | ReviewAction.skip => (true, 0)
  | ReviewAction.unknown _ => (false, 0)

/-! ### Lemmas about the string models -/

lemma pyIn_subset {needle hay : List Char} (h : pyIn needle hay = true) :
    ∀ c ∈ needle, c ∈ hay := by
  induction hay with
  | nil =>
    intro c hc
    have hn : needle = [] := by
      cases needle with
      | nil => rfl
      | cons a as => simp [pyIn] at h
    subst hn
    simp at hc
  | cons b rest ih =>
    intro c hc
    have h2 : needle.isPrefixOf (b :: rest) = true ∨ pyIn needle rest = true := by
      have h3 := h
      simp only [pyIn, Bool.or_eq_true] at h3
      exact h3
    rcases h2 with h2 | h2
    · exact (List.isPrefixOf_iff_prefix.mp h2).subset hc
    · exact List.mem_cons_of_mem _ (ih h2 c hc)

lemma anyKw_eq_false_of_ws {kws : List (List Char)} {s : List Char}
    (hs : ∀ c ∈ s, c.isWhitespace = true)
    (hk : ∀ kw ∈ kws, ∃ c ∈ kw, c.isWhitespace = false) :
    anyKw kws s = false := by
  rw [anyKw, List.any_eq_false]
  intro kw hkw hin
  obtain ⟨c, hc, hcw⟩ := hk kw hkw
  simp [hs c (pyIn_subset hin c hc)] at hcw

lemma toLower_isWhitespace {c : Char} (h : c.isWhitespace = true) :
    (Char.toLower c).isWhitespace = true := by
  have hc : ((c = ' ' ∨ c = '\t') ∨ c = '\r') ∨ c = '\n' := by
    simpa [Char.isWhitespace] using h
  rcases hc with ((h1 | h1) | h1) | h1 <;> subst h1 <;> decide

lemma pyLower_ws {s : List Char} (hs : ∀ c ∈ s, c.isWhitespace = true) :
    ∀ c ∈ pyLower s, c.isWhitespace = true := by
  intro c hc
  rw [pyLower] at hc
  obtain ⟨a, ha, rfl⟩ := List.mem_map.mp hc
  exact toLower_isWhitespace (hs a ha)

lemma pyStrip_eq_nil_of_ws {l : List Char} (h : ∀ c ∈ l, c.isWhitespace = true) :
    pyStrip l = [] := by
  have h1 : l.dropWhile Char.isWhitespace = [] := List.dropWhile_eq_nil_iff.mpr h
  simp [pyStrip, h1]

lemma mem_splitChAux {sep : Char} :
    ∀ (l acc line : List Char), line ∈ splitChAux sep l acc →
      ∀ c ∈ line, c ∈ l ∨ c ∈ acc := by
  intro l
  induction l with
  | nil =>
    intro acc line hline c hc
    simp [splitChAux] at hline
    subst hline
    right
    exact List.mem_reverse.mp hc
  | cons b rest ih =>
    intro acc line hline c hc
    by_cases hb : b = sep
    · rw [splitChAux, if_pos hb] at hline
      rcases List.mem_cons.mp hline with h1 | h1
      · subst h1
        right
        exact List.mem_reverse.mp hc
      · rcases ih [] line h1 c hc with h2 | h2
        · exact Or.inl (List.mem_cons_of_mem _ h2)
        · simp at h2
    · rw [splitChAux, if_neg hb] at hline
      rcases ih (b :: acc) line hline c hc with h2 | h2
      · exact Or.inl (List.mem_cons_of_mem _ h2)
      · rcases List.mem_cons.mp h2 with h3 | h3
        · subst h3
          exact Or.inl (List.mem_cons_self _ _)
        · exact Or.inr h3

lemma mem_splitCh {sep : Char} {l line : List Char}
    (hline : line ∈ splitCh sep l) : ∀ c ∈ line, c ∈ l := by
  intro c hc
  rcases mem_splitChAux l [] line hline c hc with h | h
  · exact h
  · simp at h

lemma feedbackOf_eq_none_of_ws {body : List Char}
    (h : ∀ c ∈ body, c.isWhitespace = true) : feedbackOf body = none := by
  have hitems : feedbackItems body = [] := by
    rw [feedbackItems, List.filterMap_eq_nil_iff]
    intro line hline
    have hstrip : pyStrip line = [] :=
      pyStrip_eq_nil_of_ws fun c hc => h c (mem_splitCh hline c hc)
    simp only [hstrip]
    decide
  rw [feedbackOf, hitems]
  rfl

/-! ### Concrete instances used by the counterexamples and witnesses -/

/-- Environment in which every candidate file exists and the external
publisher always answers `上传成功`. -/
def envAllOk : PublishEnv :=
  { fileExists := fun _ _ => true
    publisherOutput := fun _ _ => some "上传成功".data
    workflow := (true, 0) }

/-- A review reply whose identifier is already in the processed log of
`dupState`. -/
def dupEmail : Email :=
  { id := "42".data
    subject := "Re: 内容审核通知".data
    fromAddr := "zayme@example.com".data
    date := "Mon, 2 Mar 2026 08:00:00 +0800".data
    body := "发布 候选1".data }

/-- A mail state whose processed-message log already contains the identifier
of `dupEmail`. -/
def dupState : MailState :=
  { last_check_time := none
    pending_reviews := []
    processed_emails := ["42".data]
    conversation_history := [] }

/-- A cycle candidate list with exactly three entries. -/
def cycle3 : List Candidate :=
  [ { topic := "主题一".data, content := "正文一".data, angle_type := "深度分析".data,
      quality_score := 8, uniqueness_score := 8, word_count := 1500 },
    { topic := "主题二".data, content := "正文二".data, angle_type := "实战指南".data,
      quality_score := 6, uniqueness_score := 7, word_count := 1200 },
    { topic := "主题三".data, content := "正文三".data, angle_type := "行业观察".data,
      quality_score := 7, uniqueness_score := 6, word_count := 1300 } ]

/-! ### Claim C1 -/

/-- C1 counterexample.  The claim says an already-resolved cycle rejects a
second `apply(Publish 1)` with `AlreadyResolved` and does not invoke the
publisher again.  In the code, `process_review` keeps no resolution state at
all: two identical select applies each return `True` and each invoke the
external publisher once, for two invocations in total. -/
theorem process_review_second_apply_publishes_again :
    process_review envAllOk "20260301".data (ReviewAction.select 1) = (true, 1)
    ∧ (process_review envAllOk "20260301".data (ReviewAction.select 1)).2
      + (process_review envAllOk "20260301".data (ReviewAction.select 1)).2 = 2 := by
  constructor
  · decide
  · decide

/-- C1 amended: `process_review` keeps no per-cycle resolution state and has
no `AlreadyResolved` guard; every select apply whose candidate file exists
invokes the publisher exactly once (so n applies invoke it n times), and a
missing file yields `False` with no invocation. -/
theorem process_review_select_always_invokes (env : PublishEnv)
    (date : List Char) (n : Nat) (h : env.fileExists date n = true) :
    (process_review env date (ReviewAction.select n)).2 = 1 := by
  cases hout : env.publisherOutput date n <;>
    simp [process_review, publish_candidate, h, hout]

/-- C1 amended witness at a concrete environment, date and candidate. -/
theorem process_review_select_always_invokes_witness :
    (process_review envAllOk "20260301".data (ReviewAction.select 1)).2 = 1 :=
  process_review_select_always_invokes envAllOk "20260301".data 1 rfl

/-! ### Claim C2 -/

/-- C2 counterexample.  `dupEmail.id` is already in the processed log of
`dupState`, yet a poll cycle that fetches `dupEmail` parses it and
dispatches it to `handle_instruction` again, and the processed log after the
cycle is unchanged — the identifier is never recorded. -/
theorem processed_log_is_ignored_counterexample :
    dupEmail.id ∈ dupState.processed_emails
    ∧ (loopStep dupState (FetchOutcome.ok [dupEmail]) "t1".data).2
      = [(parse_instruction dupEmail.body, dupEmail)]
    ∧ (loopStep dupState (FetchOutcome.ok [dupEmail]) "t1".data).1.processed_emails
      = dupState.processed_emails := by
  refine ⟨by decide, by decide, by decide⟩

/-- C2 amended: the polling loop neither consults nor updates
`processed_emails` — the log is unchanged by every cycle and the dispatched
actions are independent of the stored state, so deduplication rests solely
on the IMAP `UNSEEN` filter of the fetch. -/
theorem mail_loop_ignores_processed_log (st st2 : MailState)
    (outcome : FetchOutcome) (now : List Char) :
    (loopStep st outcome now).1.processed_emails = st.processed_emails
    ∧ (loopStep st outcome now).2 = (loopStep st2 outcome now).2 :=
  ⟨rfl, rfl⟩

/-! ### Claim C3 -/

/-- C3 counterexample.  For a cycle with exactly three candidates, the reply
`发布 候选7` extracts the out-of-range index 7, yet `parse_instruction`
returns a Publish instruction carrying index 7 — not `Unknown` (action
`none`). -/
theorem out_of_range_index_still_publish_counterexample :
    cycle3.length = 3
    ∧ parse_instruction "发布 候选7".data =
      { action := some PyAction.publish, candidate := some 7,
        direction := none, feedback := none }
    ∧ 3 < 7 := by
  refine ⟨by decide, by decide, by decide⟩

/-- C3 amended: `parse_instruction` receives only the body text and never the
cycle, so no range validation occurs; whenever an affirmative token is
present and the index regex extracts `n`, the result is `Publish` carrying
`n` unchanged, whatever the cycle's candidate count. -/
theorem parse_keeps_extracted_index (body : List Char) (n : Nat)
    (hpub : anyKw publishKws (pyLower body) = true)
    (hidx : searchCandidate (pyLower body) = some n) :
    (parse_instruction body).action = some PyAction.publish
    ∧ (parse_instruction body).candidate = some n := by
  simp [parse_instruction, hpub, hidx]

/-- C3 amended witness at the reply `发布 候选7`. -/
theorem parse_keeps_extracted_index_witness :
    (parse_instruction "发布 候选7".data).action = some PyAction.publish
    ∧ (parse_instruction "发布 候选7".data).candidate = some 7 :=
  parse_keeps_extracted_index "发布 候选7".data 7 (by decide) (by decide)

/-! ### Claim C4 -/

/-- C4: evaluation of the parser at the failing inputs.  The code's own
review email instructs the operator to reply `发布 2`, but the index regex
only accepts `候选 N`, `candidate N` or `N号`, so both `发布 2` and
`publish 2` parse to Publish with no candidate index (and no feedback, hence
no default of 1); the `跳过`/`skip` half of the round-trip does hold. -/
theorem publish_two_loses_its_index :
    parse_instruction "发布 2".data =
      { action := some PyAction.publish, candidate := none,
        direction := none, feedback := none }
    ∧ parse_instruction "publish 2".data =
      { action := some PyAction.publish, candidate := none,
        direction := none, feedback := none }
    ∧ parse_instruction "跳过".data =
      { action := some PyAction.skip, candidate := none,
        direction := none, feedback := none }
    ∧ parse_instruction "skip".data =
      { action := some PyAction.skip, candidate := none,
        direction := none, feedback := none } := by
  refine ⟨by decide, by decide, by decide, by decide⟩

/-! ### Claim C5 -/

/-- C5: the action branches of `parse_instruction` form an if/elif chain, so
an input satisfying several trigger sets yields the highest-priority action,
in the order Publish, Regenerate, Modify (Revise), Skip, View, Unknown; and
the body `发布，但建议增加数据`, which contains both an approval token and a
revision token, parses to Publish with the whole clause captured as feedback
(and the feedback-driven default index 1), not to a Revise instruction. -/
theorem priority_order_first_match_wins (body : List Char) :
    (anyKw publishKws (pyLower body) = true →
      (parse_instruction body).action = some PyAction.publish)
    ∧ (anyKw publishKws (pyLower body) = false →
        anyKw regenKws (pyLower body) = true →
      (parse_instruction body).action = some PyAction.regenerate)
    ∧ (anyKw publishKws (pyLower body) = false →
        anyKw regenKws (pyLower body) = false →
        anyKw modifyKws (pyLower body) = true →
      (parse_instruction body).action = some PyAction.modify)
    ∧ (anyKw publishKws (pyLower body) = false →
        anyKw regenKws (pyLower body) = false →
        anyKw modifyKws (pyLower body) = false →
        anyKw skipKws (pyLower body) = true →
      (parse_instruction body).action = some PyAction.skip)
    ∧ (anyKw publishKws (pyLower body) = false →
        anyKw regenKws (pyLower body) = false →
        anyKw modifyKws (pyLower body) = false →
        anyKw skipKws (pyLower body) = false →
        anyKw viewKws (pyLower body) = true →
      (parse_instruction body).action = some PyAction.view)
    ∧ (anyKw publishKws (pyLower body) = false →
        anyKw regenKws (pyLower body) = false →
        anyKw modifyKws (pyLower body) = false →
        anyKw skipKws (pyLower body) = false →
        anyKw viewKws (pyLower body) = false →
      (parse_instruction body).action = none)
    ∧ parse_instruction "发布，但建议增加数据".data =
      { action := some PyAction.publish, candidate := some 1,
        direction := none, feedback := some "发布，但建议增加数据".data } := by
  refine ⟨?_, ?_, ?_, ?_, ?_, ?_, by decide⟩ <;>
    · intros
      simp [parse_instruction, *]

/-- C5 witness: the mixed approval-plus-revision body fires the Publish
branch. -/
theorem priority_order_first_match_wins_witness :
    (parse_instruction "发布，但建议增加数据".data).action = some PyAction.publish :=
  (priority_order_first_match_wins "发布，但建议增加数据".data).1 (by decide)

/-! ### Claim C6 -/

lemma lookupReview_setKey (k : List Char) (v : ReviewRequest)
    (m : List (List Char × ReviewRequest)) :
    lookupReview k (setKey k v m) = some v := by
  have hfind : List.find? (fun p => p.1 == k)
      ((k, v) :: List.filter (fun p => !(p.1 == k)) m) = some (k, v) := by
    simp [List.find?_cons]
  rw [lookupReview, setKey, hfind]

lemma countKey_setKey (k : List Char) (v : ReviewRequest)
    (m : List (List Char × ReviewRequest)) :
    countKey k (setKey k v m) = 1 := by
  simp [countKey, setKey, List.filter_cons, List.filter_filter]

/-- C6: a successful send returns `True` and records under the cycle's date
key exactly one pending-review entry, with the sent candidates, the send
time and status `waiting_reply`; a transport failure returns `False` and
leaves the whole state untouched (the state write sits after `sendmail`
inside the `try` block, so no entry is created). -/
theorem send_review_email_records_exactly_one (st : MailState)
    (candidates : List Candidate) (d now : List Char) :
    (send_review_email true st candidates d now).1 = true
    ∧ lookupReview d (send_review_email true st candidates d now).2.pending_reviews =
      some { date := d, candidates := candidates, sent_time := now,
             status := "waiting_reply".data }
    ∧ countKey d (send_review_email true st candidates d now).2.pending_reviews = 1
    ∧ send_review_email false st candidates d now = (false, st) :=
  ⟨rfl, lookupReview_setKey d _ st.pending_reviews,
    countKey_setKey d _ st.pending_reviews, rfl⟩

/-! ### Claim C7 -/

/-- C7: no expiry path exists.  Whatever the poll schedule — in particular
one spanning far more than 24 hours — the mail loop never changes
`pending_reviews` at all: a request created in `waiting_reply` keeps its
status, sent time and candidates forever, and a schedule of reply-free polls
dispatches no instruction whatsoever, so no `Publish` of the
highest-quality candidate is ever synthesized.  This contradicts both the
claim and the promise printed in the review email itself
(content_review_mail.py line 431). -/
theorem mail_loop_never_expires_reviews (st : MailState)
    (polls : List (FetchOutcome × List Char)) (k : Nat) (t : List Char) :
    (loopRun st polls).1.pending_reviews = st.pending_reviews
    ∧ (loopRun st (List.replicate k (FetchOutcome.ok [], t))).2 = [] := by
  constructor
  · induction polls generalizing st with
    | nil => rfl
    | cons p rest ih =>
      obtain ⟨o, t0⟩ := p
      simpa [loopRun, loopStep, loopIteration] using
        ih { st with last_check_time := some t0 }
  · induction k generalizing st with
    | zero => rfl
    | succ nn ih =>
      simp only [List.replicate_succ, loopRun, loopStep, loopIteration,
        check_new_emails, reviewActions, List.length_nil, List.drop_nil,
        List.filter_nil, List.map_nil, List.nil_append]
      exact ih _

/-! ### Claim C8 -/

/-- C8 counterexample.  A transport failure during fetch is caught inside
`check_new_emails` and surfaces as the empty list — the very value an empty
mailbox produces — so the caller cannot tell a masked error from "no new
messages". -/
theorem fetch_failure_masked_as_empty_counterexample :
    check_new_emails (FetchOutcome.err "connection refused".data) =
      check_new_emails (FetchOutcome.ok [])
    ∧ check_new_emails (FetchOutcome.err "connection refused".data) = [] :=
  ⟨rfl, rfl⟩

/-- C8 amended: a fetch failure is swallowed into an empty message list,
indistinguishable from an empty mailbox; the second half of the claim holds —
the failing poll only advances `last_check_time`, dispatches nothing, and
the loop goes on to process the remaining polls (a single fetch failure
never terminates it; fetching is simply retried on the next cycle). -/
theorem fetch_failure_never_stops_loop (m t : List Char) (st : MailState)
    (rest : List (FetchOutcome × List Char)) :
    loopRun st ((FetchOutcome.err m, t) :: rest) =
      loopRun { st with last_check_time := some t } rest
    ∧ check_new_emails (FetchOutcome.err m) = [] := by
  constructor
  · simp [loopRun, loopStep, loopIteration, check_new_emails, reviewActions]
  · rfl

/-! ### Claim C9 -/

/-- C9: an empty or whitespace-only body parses to the Unknown instruction —
action `None`, no candidate index, no direction and no feedback: no line of
such a body can carry a numbered-list marker or a suggestion keyword, and no
action keyword can occur in the lower-cased content. -/
theorem blank_body_parses_to_unknown (body : List Char)
    (h : ∀ c ∈ body, c.isWhitespace = true) :
    parse_instruction body =
      { action := none, candidate := none, direction := none, feedback := none } := by
  have hlc : ∀ c ∈ pyLower body, c.isWhitespace = true := pyLower_ws h
  have h1 : anyKw publishKws (pyLower body) = false :=
    anyKw_eq_false_of_ws hlc (by decide)
  have h2 : anyKw regenKws (pyLower body) = false :=
    anyKw_eq_false_of_ws hlc (by decide)
  have h3 : anyKw modifyKws (pyLower body) = false :=
    anyKw_eq_false_of_ws hlc (by decide)
  have h4 : anyKw skipKws (pyLower body) = false :=
    anyKw_eq_false_of_ws hlc (by decide)
  have h5 : anyKw viewKws (pyLower body) = false :=
    anyKw_eq_false_of_ws hlc (by decide)
  have hfb : feedbackOf body = none := feedbackOf_eq_none_of_ws h
  simp [parse_instruction, h1, h2, h3, h4, h5, hfb]

/-- C9 witness at the whitespace-only body of a space, a newline, a tab and
a space. -/
theorem blank_body_parses_to_unknown_witness :
    parse_instruction " \n\t ".data =
      { action := none, candidate := none, direction := none, feedback := none } :=
  blank_body_parses_to_unknown " \n\t ".data (by decide)

/-! ### Claim C10 -/

/-- C10: `parse_instruction` is a total function — in the embedding it is a
plain `def` evaluable on every input — and for every body the returned
record has exactly the four fields `action`, `candidate`, `direction`,
`feedback` (enforced by the `Instruction` structure), with `action` one of
`None`, publish, regenerate, modify, skip, view and `candidate` either
`None` or an integer. -/
theorem parse_instruction_total_and_well_shaped (body : List Char) :
    ((parse_instruction body).action = none
      ∨ (parse_instruction body).action = some PyAction.publish
      ∨ (parse_instruction body).action = some PyAction.regenerate
      ∨ (parse_instruction body).action = some PyAction.modify
      ∨ (parse_instruction body).action = some PyAction.skip
      ∨ (parse_instruction body).action = some PyAction.view)
    ∧ ((parse_instruction body).candidate = none
      ∨ ∃ n : Nat, (parse_instruction body).candidate = some n) := by
  constructor
  · rcases h : (parse_instruction body).action with _ | a
    · exact Or.inl rfl
    · cases a <;> simp
  · rcases h : (parse_instruction body).candidate with _ | n
    · exact Or.inl rfl
    · exact Or.inr ⟨n, rfl⟩

end ContentReviewMail
